import Mathlib

/-!
A shallow embedding in Lean of the two source files of the Pacman repository,
`ghost_ai.py` (the per-ghost decision engine `GhostAI`) and
`meta_rules_controller.py` (the tick-driven `MetaRulesController`), together
with theorems checking the specification's claims against the embedded code.

Modelling conventions, chosen once for the whole file:

* pixel positions and displacements are pairs of integers, exactly as in the
  Python code (`rect.center`, `change_x`/`change_y` are ints there);
* Python `float` arithmetic on scores, weights and tile distances is modelled
  by `ℚ`; every float the code manipulates is obtained from integer data and
  decimal literals, and no claim depends on binary rounding, so the decimal
  literals are read as exact rationals (`2.5 = 5/2`, `0.35 = 7/20`, ...);
* `float("inf")`, the start value of the minimum-distance fold, is modelled
  by `⊤ : WithTop ℚ`;
* a pygame sprite dictionary keyed by ghost names is modelled by a lookup
  function `String → Option Point` (Python `dict.get`); the controller's
  `role_map`, whose key set is always exactly `ghost_ids`, is modelled by the
  list of its values in `ghost_ids` order;
* the seeded `random.Random` source is modelled by the stream `ℕ → ℚ` of the
  draws it will produce: `rng.random()` is called exactly once per candidate
  scored, so candidate number `i` of a call receives draw `i`;
* the wall/gate collision test `_can_move` only reads external geometry, so
  it enters the decision logic as an oracle `Vec → Bool` on the four
  candidate displacements of the current agent.
-/

abbrev Vec : Type := ℤ × ℤ
abbrev Point : Type := ℤ × ℤ

/-- Embeds `ghost_ai.Weights`: the four scoring coefficients (dataclass defaults
`1.0, 3.0, 0.4, 0.1`). -/
structure Weights where
  w_dist : ℚ := 1
  w_reverse : ℚ := 3
  w_separation : ℚ := 2/5
  w_jitter : ℚ := 1/10
  deriving DecidableEq

namespace GhostAI

/-- Embeds `GhostAI._manhattan`. -/
def manhattan (a b : Point) : ℤ :=
  |a.1 - b.1| + |a.2 - b.2|

/-- Embeds `GhostAI._normalize_dir`: sign-normalize each axis to `-1, 0, 1`. -/
def normalize_dir (dx dy : ℤ) : Vec :=
  (if dx = 0 then 0 else if dx > 0 then 1 else -1,
   if dy = 0 then 0 else if dy > 0 then 1 else -1)

/-- The `self.scatter_targets` dict built in `GhostAI.__init__`. -/
def scatter_targets (board_size : ℤ) : String → Option Point := fun name =>
  if name = "blinky" then some (board_size - 30, 30)
  else if name = "pinky" then some (30, 30)
  else if name = "inky" then some (board_size - 30, board_size - 30)
  else if name = "clyde" then some (30, board_size - 30)
  else none

/-- The `self.weights` dict built in `GhostAI.__init__`. -/
def ghost_weights : String → Option Weights := fun name =>
  if name = "blinky" then some { w_dist := 1, w_reverse := 5/2, w_separation := 1/5, w_jitter := 0 }
  else if name = "pinky" then some { w_dist := 1, w_reverse := 2, w_separation := 1/5, w_jitter := 0 }
  else if name = "inky" then some { w_dist := 1, w_reverse := 2, w_separation := 7/10, w_jitter := 7/20 }
  else if name = "clyde" then some { w_dist := 1, w_reverse := 2, w_separation := 3/10, w_jitter := 1/20 }
  else none

/-- Embeds `GhostAI._possible_moves`: the four axis-aligned candidate displacements
of magnitude `step`, in the fixed order left, right, up, down, filtered by
the external collision oracle (`_can_move`). -/
def possible_moves (step : ℤ) (can_move : Vec → Bool) : List Vec :=
  [(-step, 0), (step, 0), (0, -step), (0, step)].filter can_move

/-- Embeds `GhostAI._compute_target`.  The `scatter_targets` lookup at key
`"clyde"` is written with `Option.getD`; the key is present, so the default
is unreachable. -/
def compute_target (tile board_size : ℤ) (name : String) (ghost_pos pac : Point)
    (pac_dx pac_dy : ℤ) (blinky : Option Point) : Point :=
  let pac_dir := normalize_dir pac_dx pac_dy
  if name = "blinky" then pac
  else if name = "pinky" then
    (pac.1 + pac_dir.1 * tile * 4, pac.2 + pac_dir.2 * tile * 4)
  else if name = "inky" then
    let ahead : Point := (pac.1 + pac_dir.1 * tile * 2, pac.2 + pac_dir.2 * tile * 2)
    match blinky with
    | none => ahead
    | some bpos => (2 * ahead.1 - bpos.1, 2 * ahead.2 - bpos.2)
  else if name = "clyde" then
    if ((manhattan ghost_pos pac : ℤ) : ℚ) / ((tile : ℤ) : ℚ) > 6 then pac
    else (scatter_targets board_size "clyde").getD (0, 0)
  else pac

/-- The `rev_pen` computation inside `GhostAI._choose_best_move`: the
`reverse` displacement is `None` when the normalized current direction is
zero, and the penalty needs `len(moves) > 1`. -/
def rev_pen (step : ℤ) (cur_dir : Vec) (n_moves : ℕ) (c : Vec) : ℚ :=
  if cur_dir ≠ (0, 0) ∧ c = (-cur_dir.1 * step, -cur_dir.2 * step) ∧ 1 < n_moves then 1000
  else 0

/-- The `sep_pen` accumulation inside `GhostAI._choose_best_move`. -/
def sep_pen (next_pos : Point) (other_ghosts : List Point) : ℚ :=
  (other_ghosts.map (fun g => 1 / (((manhattan next_pos g : ℤ) : ℚ) + 1))).sum

/-- The score of the `i`-th scored candidate `c` in
`GhostAI._choose_best_move` (draw `i` of the random stream is its jitter). -/
def move_score (step : ℤ) (pos : Point) (cur_dir : Vec) (n_moves : ℕ) (target : Point)
    (w : Weights) (other_ghosts : List Point) (jitter : ℕ → ℚ) (i : ℕ) (c : Vec) : ℚ :=
  let next_pos : Point := (pos.1 + c.1, pos.2 + c.2)
  w.w_dist * ((manhattan next_pos target : ℤ) : ℚ)
    + w.w_reverse * rev_pen step cur_dir n_moves c
    + w.w_separation * sep_pen next_pos other_ghosts * 1000
    + w.w_jitter * jitter i * 50

/-- The `for dx, dy in moves` loop of `GhostAI._choose_best_move`: running
best (`None` before the first candidate, which always beats the initial
`float("inf")` score) updated on strict improvement only. -/
def choose_loop (score : ℕ → Vec → ℚ) : List Vec → ℕ → Option (Vec × ℚ) → Option (Vec × ℚ)
  | [], _, best => best
  | c :: cs, i, best =>
    match best with
    | none => choose_loop score cs (i + 1) (some (c, score i c))
    | some b =>
      if score i c < b.2 then choose_loop score cs (i + 1) (some (c, score i c))
      else choose_loop score cs (i + 1) (some b)

/-- Embeds `GhostAI._choose_best_move`.  The `none` fallback mirrors the source's
`moves[0]`, which is only reached when `moves` is empty (where the Python
would raise); every caller guards against that. -/
def choose_best_move (step : ℤ) (pos : Point) (ghost_dx ghost_dy : ℤ) (moves : List Vec)
    (target : Point) (w : Weights) (other_ghosts : List Point) (jitter : ℕ → ℚ) : Vec :=
  let cur_dir := normalize_dir ghost_dx ghost_dy
  match choose_loop (move_score step pos cur_dir moves.length target w other_ghosts jitter)
      moves 0 none with
  | some b => b.1
  | none => moves.headD (0, 0)

/-- Embeds `GhostAI.set_ghost_direction`: the public entry point.  Returns the
displacement written to `ghost.change_x, ghost.change_y`. -/
def set_ghost_direction (step tile board_size : ℤ) (ghost_name : String) (ghost_pos : Point)
    (ghost_dx ghost_dy : ℤ) (pac : Point) (pac_dx pac_dy : ℤ) (can_move : Vec → Bool)
    (blinky : Option Point) (other_ghosts : List Point) (jitter : ℕ → ℚ) : Vec :=
  let name := ghost_name.toLower
  let possible := possible_moves step can_move
  if possible = [] then (0, 0)
  else
    let target := compute_target tile board_size name ghost_pos pac pac_dx pac_dy blinky
    let w := (ghost_weights name).getD {}
    choose_best_move step ghost_pos ghost_dx ghost_dy possible target w other_ghosts jitter

end GhostAI

/-- Embeds `meta_rules_controller.RoleSwapConfig` with its dataclass defaults. -/
structure RoleSwapConfig where
  safe_distance_tiles : ℚ := 6
  escape_ticks_threshold : ℤ := 60
  swap_cooldown_ticks : ℤ := 30
  rotation_step : ℤ := 1
  deriving DecidableEq

/-- Embeds `meta_rules_controller.ConvergeConfig` with its dataclass defaults. -/
structure ConvergeConfig where
  radius_tiles : ℚ := 6
  required_sectors : ℕ := 3
  hold_ticks : ℤ := 30
  cooldown_ticks : ℤ := 30
  deriving DecidableEq

namespace MetaRulesController

/-- Embeds `self.ghost_ids`: the fixed identity ordering. -/
def ghost_ids : List String := ["blinky", "pinky", "inky", "clyde"]

end MetaRulesController

/-- The mutable per-session state of `MetaRulesController`, as set up by
`__init__`: the `role_map` dict (whose key set is always exactly
`ghost_ids`, so it is modelled by its list of values in `ghost_ids` order;
initially each identity maps to itself) and the four meta-rule counters,
initially zero.  The counters are Python ints, hence `ℤ`. -/
structure MetaState where
  role_map : List String := MetaRulesController.ghost_ids
  escape_ticks : ℤ := 0
  role_swap_cooldown : ℤ := 0
  converge_ticks : ℤ := 0
  converge_cooldown : ℤ := 0
  deriving DecidableEq

namespace MetaRulesController

/-- The state right after `MetaRulesController.__init__`. -/
def init_state : MetaState := {}

/-- The override mapping `{gid: "converge" for gid in self.ghost_ids}`,
as its value list in `ghost_ids` order. -/
def converge_map : List String := ghost_ids.map (fun _ => "converge")

/-- The quadrant tags assigned in `_update_converge_rule`. -/
def sector_of (dx dy : ℤ) : String :=
  if dx ≥ 0 ∧ dy < 0 then "NE"
  else if dx < 0 ∧ dy < 0 then "NW"
  else if dx < 0 ∧ dy ≥ 0 then "SW"
  else "SE"

/-- The `sectors` set built by `_update_converge_rule`: one tag per tracked
ghost that is present and within Manhattan radius
`radius_tiles * float(tile)` of Pacman; a missing ghost is skipped. -/
def sectors_of (ccfg : ConvergeConfig) (tile : ℤ) (pac : Point)
    (ghosts : String → Option Point) : Finset String :=
  (ghost_ids.filterMap (fun gid =>
    match ghosts gid with
    | none => none
    | some g =>
      let dx := g.1 - pac.1
      let dy := g.2 - pac.2
      if ((|dx| + |dy| : ℤ) : ℚ) > ccfg.radius_tiles * ((tile : ℤ) : ℚ) then none
      else some (sector_of dx dy))).toFinset

/-- Embeds `MetaRulesController._update_converge_rule`: returns the new state and
`some converge_map` when converge overrides this tick, `none` otherwise.
Faithful ordering from the source: the cooldown is decremented first, then
the active-hold branch, then the cooldown gate (`!= 0` on the already
decremented value), then sector detection. -/
def update_converge_rule (ccfg : ConvergeConfig) (tile : ℤ) (pac : Point)
    (ghosts : String → Option Point) (s : MetaState) : MetaState × Option (List String) :=
  let cd := if s.converge_cooldown > 0 then s.converge_cooldown - 1 else s.converge_cooldown
  if s.converge_ticks > 0 then
    let t := s.converge_ticks - 1
    let cd2 := if t = 0 then ccfg.cooldown_ticks else cd
    ({ s with converge_ticks := t, converge_cooldown := cd2, escape_ticks := 0 },
      some converge_map)
  else if cd ≠ 0 then
    ({ s with converge_cooldown := cd }, none)
  else if ccfg.required_sectors ≤ (sectors_of ccfg tile pac ghosts).card then
    ({ s with converge_cooldown := cd, converge_ticks := ccfg.hold_ticks, escape_ticks := 0 },
      some converge_map)
  else
    ({ s with converge_cooldown := cd }, none)

/-- Embeds `MetaRulesController._min_dist_to_pacman_tiles`: minimum Manhattan
distance in tile units from Pacman to any tracked, present ghost, starting
from `float("inf")` (`⊤`); missing ghosts are skipped. -/
def min_dist_to_pacman_tiles (tile : ℤ) (pac : Point)
    (ghosts : String → Option Point) : WithTop ℚ :=
  ghost_ids.foldl (fun m gid =>
    match ghosts gid with
    | none => m
    | some g =>
      min m ((((|g.1 - pac.1| + |g.2 - pac.2| : ℤ) : ℚ) / ((tile : ℤ) : ℚ) : ℚ)))
    ⊤

/-- Embeds `MetaRulesController._swap_roles`: cyclic rotation of the role list by
`rotation_step % 4` positions (`current_roles[-step:] + current_roles[:-step]`);
a zero step is a no-op. -/
def swap_roles (cfg : RoleSwapConfig) (role_map : List String) : List String :=
  let step := cfg.rotation_step % (ghost_ids.length : ℤ)
  if step = 0 then role_map
  else
    let n := role_map.length
    role_map.drop (n - step.toNat) ++ role_map.take (n - step.toNat)

/-- Embeds `MetaRulesController._update_role_swap_rule`: escape-tick accumulation
against the safe distance, cooldown decrement, then the swap trigger. -/
def update_role_swap_rule (cfg : RoleSwapConfig) (tile : ℤ) (pac : Point)
    (ghosts : String → Option Point) (s : MetaState) : MetaState :=
  let min_dist := min_dist_to_pacman_tiles tile pac ghosts
  let esc : ℤ :=
    if (cfg.safe_distance_tiles : WithTop ℚ) ≤ min_dist then s.escape_ticks + 1 else 0
  let cd := if s.role_swap_cooldown > 0 then s.role_swap_cooldown - 1 else s.role_swap_cooldown
  if cfg.escape_ticks_threshold ≤ esc ∧ cd = 0 then
    { s with role_map := swap_roles cfg s.role_map, escape_ticks := 0,
             role_swap_cooldown := cfg.swap_cooldown_ticks }
  else
    { s with escape_ticks := esc, role_swap_cooldown := cd }

/-- Embeds `MetaRulesController.update`: converge first (it may fully override the
returned mapping), otherwise the role-swap rule runs and the current
`role_map` is returned. -/
def update (cfg : RoleSwapConfig) (ccfg : ConvergeConfig) (tile : ℤ) (pac : Point)
    (ghosts : String → Option Point) (s : MetaState) : MetaState × List String :=
  match update_converge_rule ccfg tile pac ghosts s with
  | (s1, some m) => (s1, m)
  | (s1, none) =>
    let s2 := update_role_swap_rule cfg tile pac ghosts s1
    (s2, s2.role_map)

end MetaRulesController

/-- All four meta-rule counters of a state are non-negative. -/
abbrev counters_nonneg (s : MetaState) : Prop :=
  0 ≤ s.escape_ticks ∧ 0 ≤ s.role_swap_cooldown ∧
  0 ≤ s.converge_ticks ∧ 0 ≤ s.converge_cooldown

/-- Invariant of the scan in `_choose_best_move`: starting from a running
best `(b, bs)`, the loop either keeps `(b, bs)` — in which case `bs` is a
lower bound of every remaining score — or ends at the first remaining
candidate that strictly improves on everything before it. -/
theorem choose_loop_spec (score : ℕ → Vec → ℚ) :
    ∀ (l : List Vec) (i : ℕ) (b : Vec) (bs : ℚ),
      (GhostAI.choose_loop score l i (some (b, bs)) = some (b, bs) ∧
        ∀ j (hj : j < l.length), bs ≤ score (i + j) (l.get ⟨j, hj⟩)) ∨
      (∃ j, ∃ hj : j < l.length,
        GhostAI.choose_loop score l i (some (b, bs)) =
          some (l.get ⟨j, hj⟩, score (i + j) (l.get ⟨j, hj⟩)) ∧
        score (i + j) (l.get ⟨j, hj⟩) < bs ∧
        (∀ k (hk : k < l.length),
          score (i + j) (l.get ⟨j, hj⟩) ≤ score (i + k) (l.get ⟨k, hk⟩)) ∧
        (∀ k (hk : k < l.length), k < j →
          score (i + j) (l.get ⟨j, hj⟩) < score (i + k) (l.get ⟨k, hk⟩))) := by
  intro l
  induction l with
  | nil =>
    intro i b bs
    exact Or.inl ⟨rfl, fun j hj => absurd hj (Nat.not_lt_zero j)⟩
  | cons c cs ih =>
    intro i b bs
    by_cases hlt : score i c < bs
    · have hred : GhostAI.choose_loop score (c :: cs) i (some (b, bs)) =
          GhostAI.choose_loop score cs (i + 1) (some (c, score i c)) := by
        simp [GhostAI.choose_loop, hlt]
      rcases ih (i + 1) c (score i c) with ⟨heq, hmin⟩ | ⟨j, hj, heq, hjlt, hmin, hfirst⟩
      · refine Or.inr ⟨0, Nat.succ_pos _, ?_, hlt, ?_, ?_⟩
        · rw [hred]; exact heq
        · intro k hk
          cases k with
          | zero => exact le_refl _
          | succ k2 =>
            have h2 := hmin k2 (Nat.lt_of_succ_lt_succ hk)
            have e : i + 1 + k2 = i + (k2 + 1) := by omega
            rw [e] at h2
            exact h2
        · intro k hk hk0
          exact absurd hk0 (Nat.not_lt_zero k)
      · have e : i + 1 + j = i + (j + 1) := by omega
        rw [e] at heq hjlt hmin hfirst
        refine Or.inr ⟨j + 1, Nat.succ_lt_succ hj, ?_, lt_trans hjlt hlt, ?_, ?_⟩
        · rw [hred]; exact heq
        · intro k hk
          cases k with
          | zero => exact le_of_lt hjlt
          | succ k2 =>
            have h2 := hmin k2 (Nat.lt_of_succ_lt_succ hk)
            have e2 : i + 1 + k2 = i + (k2 + 1) := by omega
            rw [e2] at h2
            exact h2
        · intro k hk hkj
          cases k with
          | zero => exact hjlt
          | succ k2 =>
            have h2 := hfirst k2 (Nat.lt_of_succ_lt_succ hk) (Nat.lt_of_succ_lt_succ hkj)
            have e2 : i + 1 + k2 = i + (k2 + 1) := by omega
            rw [e2] at h2
            exact h2
    · have hred : GhostAI.choose_loop score (c :: cs) i (some (b, bs)) =
          GhostAI.choose_loop score cs (i + 1) (some (b, bs)) := by
        simp [GhostAI.choose_loop, hlt]
      have hbs : bs ≤ score i c := le_of_not_lt hlt
      rcases ih (i + 1) b bs with ⟨heq, hmin⟩ | ⟨j, hj, heq, hjlt, hmin, hfirst⟩
      · refine Or.inl ⟨?_, ?_⟩
        · rw [hred]; exact heq
        · intro k hk
          cases k with
          | zero => exact hbs
          | succ k2 =>
            have h2 := hmin k2 (Nat.lt_of_succ_lt_succ hk)
            have e : i + 1 + k2 = i + (k2 + 1) := by omega
            rw [e] at h2
            exact h2
      · have e : i + 1 + j = i + (j + 1) := by omega
        rw [e] at heq hjlt hmin hfirst
        refine Or.inr ⟨j + 1, Nat.succ_lt_succ hj, ?_, hjlt, ?_, ?_⟩
        · rw [hred]; exact heq
        · intro k hk
          cases k with
          | zero => exact le_of_lt (lt_of_lt_of_le hjlt hbs)
          | succ k2 =>
            have h2 := hmin k2 (Nat.lt_of_succ_lt_succ hk)
            have e2 : i + 1 + k2 = i + (k2 + 1) := by omega
            rw [e2] at h2
            exact h2
        · intro k hk hkj
          cases k with
          | zero => exact lt_of_lt_of_le hjlt hbs
          | succ k2 =>
            have h2 := hfirst k2 (Nat.lt_of_succ_lt_succ hk) (Nat.lt_of_succ_lt_succ hkj)
            have e2 : i + 1 + k2 = i + (k2 + 1) := by omega
            rw [e2] at h2
            exact h2

/-- Running `_choose_best_move` on a nonempty candidate list returns the candidate
at the least list index attaining the minimal score. -/
theorem choose_best_move_spec (step : ℤ) (pos : Point) (gdx gdy : ℤ) (target : Point)
    (w : Weights) (others : List Point) (jitter : ℕ → ℚ) (moves : List Vec)
    (h : moves ≠ []) :
    ∃ j, ∃ hj : j < moves.length,
      GhostAI.choose_best_move step pos gdx gdy moves target w others jitter =
        moves.get ⟨j, hj⟩ ∧
      (∀ k (hk : k < moves.length),
        GhostAI.move_score step pos (GhostAI.normalize_dir gdx gdy) moves.length target w
            others jitter j (moves.get ⟨j, hj⟩) ≤
          GhostAI.move_score step pos (GhostAI.normalize_dir gdx gdy) moves.length target w
            others jitter k (moves.get ⟨k, hk⟩)) ∧
      (∀ k (hk : k < moves.length), k < j →
        GhostAI.move_score step pos (GhostAI.normalize_dir gdx gdy) moves.length target w
            others jitter j (moves.get ⟨j, hj⟩) <
          GhostAI.move_score step pos (GhostAI.normalize_dir gdx gdy) moves.length target w
            others jitter k (moves.get ⟨k, hk⟩)) := by
  match moves, h with
  | c :: cs, _ =>
    have hred : GhostAI.choose_best_move step pos gdx gdy (c :: cs) target w others jitter =
        (match GhostAI.choose_loop
            (GhostAI.move_score step pos (GhostAI.normalize_dir gdx gdy) (c :: cs).length
              target w others jitter) cs 1
            (some (c, GhostAI.move_score step pos (GhostAI.normalize_dir gdx gdy)
              (c :: cs).length target w others jitter 0 c)) with
         | some b => b.1
         | none => (c :: cs).headD (0, 0)) := rfl
    rcases choose_loop_spec
        (GhostAI.move_score step pos (GhostAI.normalize_dir gdx gdy) (c :: cs).length
          target w others jitter) cs 1 c
        (GhostAI.move_score step pos (GhostAI.normalize_dir gdx gdy) (c :: cs).length
          target w others jitter 0 c) with
      hl | ⟨j, hj, heq, hjlt, hmin, hfirst⟩
    · obtain ⟨heq, hmin⟩ := hl
      refine ⟨0, Nat.succ_pos _, ?_, ?_, ?_⟩
      · rw [hred, heq]; rfl
      · intro k hk
        cases k with
        | zero => exact le_refl _
        | succ k2 =>
          have h2 := hmin k2 (Nat.lt_of_succ_lt_succ hk)
          have e : 1 + k2 = k2 + 1 := by omega
          rw [e] at h2
          exact h2
      · intro k hk hk0
        exact absurd hk0 (Nat.not_lt_zero k)
    · have e : 1 + j = j + 1 := by omega
      rw [e] at heq hjlt hmin hfirst
      refine ⟨j + 1, Nat.succ_lt_succ hj, ?_, ?_, ?_⟩
      · rw [hred, heq]; rfl
      · intro k hk
        cases k with
        | zero => exact le_of_lt hjlt
        | succ k2 =>
          have h2 := hmin k2 (Nat.lt_of_succ_lt_succ hk)
          have e2 : 1 + k2 = k2 + 1 := by omega
          rw [e2] at h2
          exact h2
      · intro k hk hkj
        cases k with
        | zero => exact hjlt
        | succ k2 =>
          have h2 := hfirst k2 (Nat.lt_of_succ_lt_succ hk) (Nat.lt_of_succ_lt_succ hkj)
          have e2 : 1 + k2 = k2 + 1 := by omega
          rw [e2] at h2
          exact h2

/-- On a nonempty candidate list, `_choose_best_move` returns one of the
candidates. -/
theorem choose_best_move_mem (step : ℤ) (pos : Point) (gdx gdy : ℤ) (target : Point)
    (w : Weights) (others : List Point) (jitter : ℕ → ℚ) (moves : List Vec)
    (h : moves ≠ []) :
    GhostAI.choose_best_move step pos gdx gdy moves target w others jitter ∈ moves := by
  obtain ⟨j, hj, heq, -, -⟩ :=
    choose_best_move_spec step pos gdx gdy target w others jitter moves h
  rw [heq]
  exact List.get_mem _ _ _

/-- C1: whenever at least one of the four candidate displacements passes the
move-validity oracle, the displacement `set_ghost_direction` writes to the
agent is one of those free candidates; with zero free candidates it writes
the zero displacement.  The call mutates nothing but the jitter stream, and
with zero free candidates the stream is not even consumed, so the statement
— quantified over every stream — also covers every repeated call with zero
free candidates, each of which again yields `(0, 0)`. -/
theorem c1_entry_point_safety (step tile board_size : ℤ) (ghost_name : String)
    (ghost_pos : Point) (gdx gdy : ℤ) (pac : Point) (pdx pdy : ℤ)
    (can_move : Vec → Bool) (blinky : Option Point) (others : List Point)
    (jitter : ℕ → ℚ) :
    if GhostAI.possible_moves step can_move = [] then
      GhostAI.set_ghost_direction step tile board_size ghost_name ghost_pos gdx gdy pac
        pdx pdy can_move blinky others jitter = (0, 0)
    else
      GhostAI.set_ghost_direction step tile board_size ghost_name ghost_pos gdx gdy pac
        pdx pdy can_move blinky others jitter ∈ GhostAI.possible_moves step can_move := by
  by_cases hp : GhostAI.possible_moves step can_move = []
  · rw [if_pos hp]
    simp [GhostAI.set_ghost_direction, hp]
  · rw [if_neg hp]
    simp only [GhostAI.set_ghost_direction, if_neg hp]
    exact choose_best_move_mem _ _ _ _ _ _ _ _ _ hp

/-- C4: the reversal penalty of a candidate is `1000` exactly when the
candidate is the exact reverse of the agent's sign-normalized current facing
(a zero facing has no reverse: the source sets `reverse = None`) and more
than one candidate is free, and `0` otherwise; and when a single candidate
is the only free one — in particular when that candidate is the reverse
move — it is the displacement the entry point chooses, so the agent never
deadlocks. -/
theorem c4_reversal_penalty (step : ℤ) (gdx gdy : ℤ) (n_moves : ℕ) (c : Vec) :
    (GhostAI.rev_pen step (GhostAI.normalize_dir gdx gdy) n_moves c = 1000 ↔
      (GhostAI.normalize_dir gdx gdy ≠ (0, 0) ∧
        c = (-(GhostAI.normalize_dir gdx gdy).1 * step,
             -(GhostAI.normalize_dir gdx gdy).2 * step) ∧
        1 < n_moves)) ∧
    (GhostAI.rev_pen step (GhostAI.normalize_dir gdx gdy) n_moves c ≠ 1000 →
      GhostAI.rev_pen step (GhostAI.normalize_dir gdx gdy) n_moves c = 0) ∧
    (∀ (tile board_size : ℤ) (ghost_name : String) (ghost_pos pac : Point) (pdx pdy : ℤ)
        (can_move : Vec → Bool) (blinky : Option Point) (others : List Point)
        (jitter : ℕ → ℚ),
      GhostAI.possible_moves step can_move = [c] →
      GhostAI.set_ghost_direction step tile board_size ghost_name ghost_pos gdx gdy pac
        pdx pdy can_move blinky others jitter = c) := by
  refine ⟨?_, ?_, ?_⟩
  · unfold GhostAI.rev_pen
    split_ifs with hcond
    · exact ⟨fun _ => hcond, fun _ => rfl⟩
    · constructor
      · intro h1000; norm_num at h1000
      · intro hc; exact absurd hc hcond
  · unfold GhostAI.rev_pen
    split_ifs with hcond
    · intro hne; exact absurd rfl hne
    · intro _; rfl
  · intro tile board_size ghost_name ghost_pos pac pdx pdy can_move blinky others jitter hp
    have hne : GhostAI.possible_moves step can_move ≠ [] := by rw [hp]; exact List.cons_ne_nil _ _
    simp only [GhostAI.set_ghost_direction, if_neg hne, hp]
    have hmem := choose_best_move_mem step ghost_pos gdx gdy
      (GhostAI.compute_target tile board_size ghost_name.toLower ghost_pos pac pdx pdy blinky)
      ((GhostAI.ghost_weights ghost_name.toLower).getD {}) others jitter [c]
      (List.cons_ne_nil _ _)
    simpa using hmem

/-- C4 witness: with facing `(1, 0)` (normalized from `(5, 0)`), step 15 and
4 free candidates, the reverse candidate `(-15, 0)` gets penalty 1000; and
when the oracle frees only `(-15, 0)`, the entry point chooses it. -/
theorem c4_reversal_penalty_witness :
    GhostAI.rev_pen 15 (GhostAI.normalize_dir 5 0) 4 (-15, 0) = 1000 ∧
    GhostAI.set_ghost_direction 15 30 606 "blinky" (0, 0) 5 0 (100, 100) 0 0
      (fun v => decide (v = (-15, 0))) none [] (fun _ => 0) = (-15, 0) := by
  constructor
  · exact (c4_reversal_penalty 15 5 0 4 (-15, 0)).1.mpr (by decide)
  · exact (c4_reversal_penalty 15 5 0 4 (-15, 0)).2.2 30 606 "blinky" (0, 0) (100, 100)
      0 0 (fun v => decide (v = (-15, 0))) none [] (fun _ => 0) (by decide)

/-- C5: on the free-candidate list (which preserves the fixed enumeration
order left, right, up, down, being the oracle-filter of that list), the
decision engine scores candidate `k` as `w_dist * manhattan(next, target) +
w_reverse * reversalPenalty + w_separation * separationPenalty * 1000 +
w_jitter * draw_k * 50` — draw `k` being the `k`-th value of the
pseudo-random stream, in `[0,1)` — and returns the candidate of minimal
score, ties resolved in favor of the earliest candidate in that order. -/
theorem c5_minimum_score_choice (step : ℤ) (pos : Point) (gdx gdy : ℤ) (target : Point)
    (w : Weights) (others : List Point) (can_move : Vec → Bool) (jitter : ℕ → ℚ)
    (hjit : ∀ i, 0 ≤ jitter i ∧ jitter i < 1)
    (h : GhostAI.possible_moves step can_move ≠ []) :
    List.Sublist (GhostAI.possible_moves step can_move) [(-step, 0), (step, 0), (0, -step), (0, step)] ∧
    ∃ j, ∃ hj : j < (GhostAI.possible_moves step can_move).length,
      GhostAI.choose_best_move step pos gdx gdy (GhostAI.possible_moves step can_move)
          target w others jitter = (GhostAI.possible_moves step can_move).get ⟨j, hj⟩ ∧
      (∀ k (hk : k < (GhostAI.possible_moves step can_move).length),
        (w.w_dist * ((GhostAI.manhattan
              (pos.1 + ((GhostAI.possible_moves step can_move).get ⟨j, hj⟩).1,
               pos.2 + ((GhostAI.possible_moves step can_move).get ⟨j, hj⟩).2) target : ℤ) : ℚ)
          + w.w_reverse * GhostAI.rev_pen step (GhostAI.normalize_dir gdx gdy)
              (GhostAI.possible_moves step can_move).length
              ((GhostAI.possible_moves step can_move).get ⟨j, hj⟩)
          + w.w_separation * GhostAI.sep_pen
              (pos.1 + ((GhostAI.possible_moves step can_move).get ⟨j, hj⟩).1,
               pos.2 + ((GhostAI.possible_moves step can_move).get ⟨j, hj⟩).2) others * 1000
          + w.w_jitter * jitter j * 50) ≤
        (w.w_dist * ((GhostAI.manhattan
              (pos.1 + ((GhostAI.possible_moves step can_move).get ⟨k, hk⟩).1,
               pos.2 + ((GhostAI.possible_moves step can_move).get ⟨k, hk⟩).2) target : ℤ) : ℚ)
          + w.w_reverse * GhostAI.rev_pen step (GhostAI.normalize_dir gdx gdy)
              (GhostAI.possible_moves step can_move).length
              ((GhostAI.possible_moves step can_move).get ⟨k, hk⟩)
          + w.w_separation * GhostAI.sep_pen
              (pos.1 + ((GhostAI.possible_moves step can_move).get ⟨k, hk⟩).1,
               pos.2 + ((GhostAI.possible_moves step can_move).get ⟨k, hk⟩).2) others * 1000
          + w.w_jitter * jitter k * 50)) ∧
      (∀ k (hk : k < (GhostAI.possible_moves step can_move).length), k < j →
        (w.w_dist * ((GhostAI.manhattan
              (pos.1 + ((GhostAI.possible_moves step can_move).get ⟨j, hj⟩).1,
               pos.2 + ((GhostAI.possible_moves step can_move).get ⟨j, hj⟩).2) target : ℤ) : ℚ)
          + w.w_reverse * GhostAI.rev_pen step (GhostAI.normalize_dir gdx gdy)
              (GhostAI.possible_moves step can_move).length
              ((GhostAI.possible_moves step can_move).get ⟨j, hj⟩)
          + w.w_separation * GhostAI.sep_pen
              (pos.1 + ((GhostAI.possible_moves step can_move).get ⟨j, hj⟩).1,
               pos.2 + ((GhostAI.possible_moves step can_move).get ⟨j, hj⟩).2) others * 1000
          + w.w_jitter * jitter j * 50) <
        (w.w_dist * ((GhostAI.manhattan
              (pos.1 + ((GhostAI.possible_moves step can_move).get ⟨k, hk⟩).1,
               pos.2 + ((GhostAI.possible_moves step can_move).get ⟨k, hk⟩).2) target : ℤ) : ℚ)
          + w.w_reverse * GhostAI.rev_pen step (GhostAI.normalize_dir gdx gdy)
              (GhostAI.possible_moves step can_move).length
              ((GhostAI.possible_moves step can_move).get ⟨k, hk⟩)
          + w.w_separation * GhostAI.sep_pen
              (pos.1 + ((GhostAI.possible_moves step can_move).get ⟨k, hk⟩).1,
               pos.2 + ((GhostAI.possible_moves step can_move).get ⟨k, hk⟩).2) others * 1000
          + w.w_jitter * jitter k * 50)) := by
  refine ⟨List.filter_sublist _, ?_⟩
  obtain ⟨j, hj, heq, hmin, hfirst⟩ :=
    choose_best_move_spec step pos gdx gdy target w others jitter
      (GhostAI.possible_moves step can_move) h
  exact ⟨j, hj, heq, fun k hk => hmin k hk, fun k hk hkj => hfirst k hk hkj⟩

/-- C5 witness: with all four candidates free, the chosen displacement is a
list element of the order-preserving free-candidate list. -/
theorem c5_minimum_score_choice_witness :
    List.Sublist (GhostAI.possible_moves 15 (fun _ => true)) [(-15, 0), (15, 0), (0, -15), (0, 15)] ∧
    ∃ j, ∃ hj : j < (GhostAI.possible_moves 15 (fun _ => true)).length,
      GhostAI.choose_best_move 15 (300, 300) 0 0 (GhostAI.possible_moves 15 (fun _ => true))
        (0, 0) {} [] (fun _ => 0) = (GhostAI.possible_moves 15 (fun _ => true)).get ⟨j, hj⟩ := by
  have H := c5_minimum_score_choice 15 (300, 300) 0 0 (0, 0) {} [] (fun _ => true)
    (fun _ => 0) (fun _ => ⟨le_refl 0, one_pos⟩) (by decide)
  obtain ⟨hsub, j, hj, heq, -, -⟩ := H
  exact ⟨hsub, j, hj, heq⟩

/-- C6: the herder (`"clyde"`) targets the player's position exactly when
the Manhattan distance in tile units strictly exceeds 6.0, i.e. when
`6 * tile < manhattan`; otherwise — in particular at exactly 6.0 tiles —
it targets the fixed `clyde` scatter corner `(30, board_size - 30)`. -/
theorem c6_herder_distance_gate (tile board_size : ℤ) (ghost_pos pac : Point)
    (pdx pdy : ℤ) (blinky : Option Point) (ht : 0 < tile) :
    GhostAI.compute_target tile board_size "clyde" ghost_pos pac pdx pdy blinky =
      if 6 * tile < GhostAI.manhattan ghost_pos pac then pac
      else (30, board_size - 30) := by
  have hred : GhostAI.compute_target tile board_size "clyde" ghost_pos pac pdx pdy blinky =
      if ((GhostAI.manhattan ghost_pos pac : ℤ) : ℚ) / ((tile : ℤ) : ℚ) > 6 then pac
      else (30, board_size - 30) := rfl
  have htq : (0 : ℚ) < ((tile : ℤ) : ℚ) := by exact_mod_cast ht
  have hiff : (((GhostAI.manhattan ghost_pos pac : ℤ) : ℚ) / ((tile : ℤ) : ℚ) > 6) ↔
      (6 * tile < GhostAI.manhattan ghost_pos pac) := by
    rw [gt_iff_lt, lt_div_iff₀ htq]
    norm_cast
  rw [hred]
  by_cases h6 : 6 * tile < GhostAI.manhattan ghost_pos pac
  · rw [if_pos (hiff.mpr h6), if_pos h6]
  · rw [if_neg (fun hc => h6 (hiff.mp hc)), if_neg h6]

/-- C6 witness: at exactly 6.0 tiles (tile = 30, Manhattan distance 180
pixels) the herder picks the scatter corner, not the player. -/
theorem c6_herder_distance_gate_witness :
    GhostAI.compute_target 30 606 "clyde" (0, 0) (180, 0) 0 0 none = (30, 576) := by
  rw [c6_herder_distance_gate 30 606 (0, 0) (180, 0) 0 0 none (by decide)]
  decide

/-- C7: the intercept role (`"inky"`) projects the ahead-point 2 tiles along
the player's sign-normalized facing; with no reference agent the target is
the ahead-point, with one it is the point reflection `2*ahead - ref`;
numerically, ahead `(160, 100)` and reference `(100, 100)` give `(220, 100)`. -/
theorem c7_intercept_point_reflection (tile board_size : ℤ) (ghost_pos pac : Point)
    (pdx pdy : ℤ) (bpos : Point) :
    (GhostAI.compute_target tile board_size "inky" ghost_pos pac pdx pdy none =
      (pac.1 + (GhostAI.normalize_dir pdx pdy).1 * tile * 2,
       pac.2 + (GhostAI.normalize_dir pdx pdy).2 * tile * 2)) ∧
    (GhostAI.compute_target tile board_size "inky" ghost_pos pac pdx pdy (some bpos) =
      (2 * (pac.1 + (GhostAI.normalize_dir pdx pdy).1 * tile * 2) - bpos.1,
       2 * (pac.2 + (GhostAI.normalize_dir pdx pdy).2 * tile * 2) - bpos.2)) ∧
    GhostAI.compute_target 30 606 "inky" (0, 0) (100, 100) 1 0 (some (100, 100)) =
      (220, 100) :=
  ⟨rfl, rfl, by decide⟩

/-- C8: under the converge override role the computed target is the player's
current position, for every agent position, facing, board geometry and
reference agent. -/
theorem c8_converge_role_targets_player (tile board_size : ℤ) (ghost_pos pac : Point)
    (pdx pdy : ℤ) (blinky : Option Point) :
    GhostAI.compute_target tile board_size "converge" ghost_pos pac pdx pdy blinky = pac :=
  rfl

/-- C3: at the rule's check point (after this tick's escape update and
cooldown decrement), reaching the escape threshold with a zero swap
cooldown performs exactly one cyclic rotation of the role mapping, resets
the escape counter and arms the cooldown; rotation by a step congruent to 1
sends `[A,B,C,D]` to `[D,A,B,C]`; the step only matters modulo four; and a
step congruent to 0 leaves the mapping unchanged. -/
theorem c3_role_swap_rotation (rcfg : RoleSwapConfig) (tile : ℤ) (pac : Point)
    (ghosts : String → Option Point) (s : MetaState) :
    (∀ (hesc : rcfg.escape_ticks_threshold ≤
          (if (rcfg.safe_distance_tiles : WithTop ℚ) ≤
              MetaRulesController.min_dist_to_pacman_tiles tile pac ghosts
            then s.escape_ticks + 1 else 0))
      (hcd : (if s.role_swap_cooldown > 0 then s.role_swap_cooldown - 1
          else s.role_swap_cooldown) = 0),
      MetaRulesController.update_role_swap_rule rcfg tile pac ghosts s =
        { s with role_map := MetaRulesController.swap_roles rcfg s.role_map,
                 escape_ticks := 0,
                 role_swap_cooldown := rcfg.swap_cooldown_ticks }) ∧
    (∀ a b c d : String, rcfg.rotation_step % 4 = 1 →
      MetaRulesController.swap_roles rcfg [a, b, c, d] = [d, a, b, c]) ∧
    (∀ roles : List String,
      MetaRulesController.swap_roles { rcfg with rotation_step := rcfg.rotation_step + 4 }
          roles =
        MetaRulesController.swap_roles rcfg roles) ∧
    (∀ roles : List String, rcfg.rotation_step % 4 = 0 →
      MetaRulesController.swap_roles rcfg roles = roles) := by
  refine ⟨?_, ?_, ?_, ?_⟩
  · intro hesc hcd
    simp only [MetaRulesController.update_role_swap_rule]
    rw [if_pos ⟨hesc, hcd⟩]
  · intro a b c d hstep
    have hred : MetaRulesController.swap_roles rcfg [a, b, c, d] =
        (if rcfg.rotation_step % 4 = 0 then [a, b, c, d]
         else List.drop (4 - (rcfg.rotation_step % 4).toNat) [a, b, c, d] ++
           List.take (4 - (rcfg.rotation_step % 4).toNat) [a, b, c, d]) := rfl
    rw [hred, hstep]
    rfl
  · intro roles
    have hred1 : MetaRulesController.swap_roles
        { rcfg with rotation_step := rcfg.rotation_step + 4 } roles =
        (if (rcfg.rotation_step + 4) % 4 = 0 then roles
         else List.drop (roles.length - ((rcfg.rotation_step + 4) % 4).toNat) roles ++
           List.take (roles.length - ((rcfg.rotation_step + 4) % 4).toNat) roles) := rfl
    have hred2 : MetaRulesController.swap_roles rcfg roles =
        (if rcfg.rotation_step % 4 = 0 then roles
         else List.drop (roles.length - (rcfg.rotation_step % 4).toNat) roles ++
           List.take (roles.length - (rcfg.rotation_step % 4).toNat) roles) := rfl
    have he : (rcfg.rotation_step + 4) % 4 = rcfg.rotation_step % 4 := by omega
    rw [hred1, hred2, he]
  · intro roles h0
    have hred2 : MetaRulesController.swap_roles rcfg roles =
        (if rcfg.rotation_step % 4 = 0 then roles
         else List.drop (roles.length - (rcfg.rotation_step % 4).toNat) roles ++
           List.take (roles.length - (rcfg.rotation_step % 4).toNat) roles) := rfl
    rw [hred2, h0]
    rfl

/-- C3 witness: with the default config and no tracked ghosts (distance
`⊤`), a state with 59 escape ticks and zero cooldown swaps on this tick;
and rotating `[A,B,C,D]` by the default step 1 gives `[D,A,B,C]`. -/
theorem c3_role_swap_rotation_witness :
    MetaRulesController.update_role_swap_rule {} 30 (0, 0) (fun _ => none)
        { escape_ticks := 59 } =
      { role_map := MetaRulesController.swap_roles {} MetaRulesController.ghost_ids,
        escape_ticks := 0, role_swap_cooldown := 30 } ∧
    MetaRulesController.swap_roles {} ["A", "B", "C", "D"] = ["D", "A", "B", "C"] := by
  constructor
  · exact (c3_role_swap_rotation {} 30 (0, 0) (fun _ => none)
      { escape_ticks := 59 }).1 (by decide) (by decide)
  · exact (c3_role_swap_rotation {} 30 (0, 0) (fun _ => none)
      { escape_ticks := 59 }).2.1 "A" "B" "C" "D" (by decide)

/-- The converge rule never drives a counter negative (given non-negative
configured lengths). -/
theorem update_converge_rule_nonneg (ccfg : ConvergeConfig) (tile : ℤ) (pac : Point)
    (ghosts : String → Option Point) (s : MetaState) (hhold : 0 ≤ ccfg.hold_ticks)
    (hcool : 0 ≤ ccfg.cooldown_ticks) (hs : counters_nonneg s) :
    counters_nonneg (MetaRulesController.update_converge_rule ccfg tile pac ghosts s).1 := by
  obtain ⟨h1, h2, h3, h4⟩ := hs
  obtain ⟨rm, et, rsc, ct, cc⟩ := s
  simp only [MetaRulesController.update_converge_rule] at *
  split_ifs <;> refine ⟨?_, ?_, ?_, ?_⟩ <;> simp_all <;> omega

/-- The role-swap rule never drives a counter negative (given a non-negative
configured cooldown length). -/
theorem update_role_swap_rule_nonneg (rcfg : RoleSwapConfig) (tile : ℤ) (pac : Point)
    (ghosts : String → Option Point) (s : MetaState) (hsw : 0 ≤ rcfg.swap_cooldown_ticks)
    (hs : counters_nonneg s) :
    counters_nonneg (MetaRulesController.update_role_swap_rule rcfg tile pac ghosts s) := by
  obtain ⟨h1, h2, h3, h4⟩ := hs
  obtain ⟨rm, et, rsc, ct, cc⟩ := s
  simp only [MetaRulesController.update_role_swap_rule] at *
  split_ifs <;> refine ⟨?_, ?_, ?_, ?_⟩ <;> simp_all <;> omega

/-- C9: the four meta-rule counters are zero (hence non-negative) in the
state built by `__init__`, and an `update` step from any state with
non-negative counters — under non-negative configured lengths — again
yields non-negative counters: each counter is decremented only while
strictly positive and otherwise only reset to zero or to a configured
length. -/
theorem c9_counters_never_negative (rcfg : RoleSwapConfig) (ccfg : ConvergeConfig)
    (tile : ℤ) (pac : Point) (ghosts : String → Option Point) (s : MetaState)
    (hcfg : 0 ≤ rcfg.swap_cooldown_ticks ∧ 0 ≤ ccfg.hold_ticks ∧ 0 ≤ ccfg.cooldown_ticks)
    (hs : counters_nonneg s) :
    counters_nonneg MetaRulesController.init_state ∧
    counters_nonneg (MetaRulesController.update rcfg ccfg tile pac ghosts s).1 := by
  refine ⟨⟨le_refl 0, le_refl 0, le_refl 0, le_refl 0⟩, ?_⟩
  have hcv := update_converge_rule_nonneg ccfg tile pac ghosts s hcfg.2.1 hcfg.2.2 hs
  unfold MetaRulesController.update
  rcases hres : MetaRulesController.update_converge_rule ccfg tile pac ghosts s with ⟨s1, res⟩
  rw [hres] at hcv
  cases res with
  | some m => exact hcv
  | none =>
    exact update_role_swap_rule_nonneg rcfg tile pac ghosts s1 hcfg.1 hcv

/-- C9 witness: the initial state and one default-config update step from it
have non-negative counters. -/
theorem c9_counters_never_negative_witness :
    counters_nonneg MetaRulesController.init_state ∧
    counters_nonneg (MetaRulesController.update {} {} 30 (0, 0) (fun _ => none)
      MetaRulesController.init_state).1 :=
  c9_counters_never_negative {} {} 30 (0, 0) (fun _ => none)
    MetaRulesController.init_state (by decide) (by decide)

/-- A concrete placement of three ghosts in three distinct quadrants, each at
Manhattan distance 20 px from a Pacman at `(300, 300)` (well within the
default 180 px radius), used to probe the converge rule. -/
def three_sector_ghosts : String → Option Point := fun gid =>
  if gid = "blinky" then some (310, 290)
  else if gid = "pinky" then some (290, 290)
  else if gid = "inky" then some (290, 310)
  else none

theorem three_sector_ghosts_card :
    ({} : ConvergeConfig).required_sectors ≤
      (MetaRulesController.sectors_of {} 30 (300, 300) three_sector_ghosts).card := by
  have hl : MetaRulesController.ghost_ids.filterMap (fun gid =>
      match three_sector_ghosts gid with
      | none => none
      | some g =>
        let dx := g.1 - (300 : ℤ)
        let dy := g.2 - (300 : ℤ)
        if ((|dx| + |dy| : ℤ) : ℚ) >
            ({} : ConvergeConfig).radius_tiles * (((30 : ℤ) : ℤ) : ℚ) then none
        else some (MetaRulesController.sector_of dx dy)) = ["NE", "NW", "SW"] := by
    have e1 : ("pinky" : String) = "blinky" ↔ False := by simp +decide
    have e2 : ("inky" : String) = "blinky" ↔ False := by simp +decide
    have e3 : ("inky" : String) = "pinky" ↔ False := by simp +decide
    have e4 : ("clyde" : String) = "blinky" ↔ False := by simp +decide
    have e5 : ("clyde" : String) = "pinky" ↔ False := by simp +decide
    have e6 : ("clyde" : String) = "inky" ↔ False := by simp +decide
    simp only [MetaRulesController.ghost_ids, three_sector_ghosts, List.filterMap_cons,
      List.filterMap_nil, e1, e2, e3, e4, e5, e6]
    norm_num [MetaRulesController.sector_of]
  unfold MetaRulesController.sectors_of
  rw [hl]
  decide

/-- C2 counterexample: the claim says that while the converge cooldown is
positive no detection is evaluated, i.e. a tick entered with
`converge_cooldown = 1`, hold inactive, cannot newly trigger converge.  But
the code decrements the cooldown *before* the `!= 0` gate, so on exactly
that tick detection runs: with three ghosts occupying three distinct
sectors within radius, `update` returns the all-converge override and arms
the hold counter even though the cooldown was positive at entry. -/
theorem c2_cooldown_boundary_counterexample :
    0 < ({ converge_cooldown := 1 } : MetaState).converge_cooldown ∧
    ({ converge_cooldown := 1 } : MetaState).converge_ticks = 0 ∧
    (MetaRulesController.update {} {} 30 (300, 300) three_sector_ghosts
        { converge_cooldown := 1 }).2 = MetaRulesController.converge_map ∧
    (MetaRulesController.update {} {} 30 (300, 300) three_sector_ghosts
        { converge_cooldown := 1 }).1.converge_ticks = 30 := by
  have hcv : MetaRulesController.update_converge_rule {} 30 (300, 300) three_sector_ghosts
      { converge_cooldown := 1 } =
      ({ converge_cooldown := 0, converge_ticks := 30, escape_ticks := 0 },
        some MetaRulesController.converge_map) := by
    have hsec := three_sector_ghosts_card
    simp only [MetaRulesController.update_converge_rule]
    norm_num
    exact hsec
  refine ⟨by decide, rfl, ?_, ?_⟩ <;>
    simp only [MetaRulesController.update, hcv]

/-- C2 (amended): the converge meta-rule as the code implements it.
(a) With hold and cooldown both inactive, if the present agents within the
configured Manhattan radius of the player occupy at least the required
number of distinct sectors, `update` arms the hold counter to the
configured hold length, zeroes the escape-tick counter and immediately
returns the all-converge mapping.  (b) On every tick entered with a
positive hold counter, `update` decrements it, forces the escape-tick
counter to zero and returns the all-converge mapping regardless of the
role-swap counters.  (c) On the tick the hold counter reaches zero, the
converge cooldown is armed to the configured cooldown length.  (d) No
detection is evaluated while the cooldown remains positive after the
per-tick decrement — i.e. on ticks entered with cooldown at least 2 the
rule only decrements the cooldown and yields no override, whatever the
agent positions (the tick entered with cooldown exactly 1 decrements it to
zero and does evaluate detection; see the counterexample). -/
theorem c2_converge_state_machine (rcfg : RoleSwapConfig) (ccfg : ConvergeConfig)
    (tile : ℤ) (pac : Point) (ghosts : String → Option Point) (s : MetaState) :
    (s.converge_ticks = 0 → s.converge_cooldown = 0 →
      ccfg.required_sectors ≤ (MetaRulesController.sectors_of ccfg tile pac ghosts).card →
      MetaRulesController.update rcfg ccfg tile pac ghosts s =
        ({ s with converge_ticks := ccfg.hold_ticks, escape_ticks := 0 },
          MetaRulesController.converge_map)) ∧
    (0 < s.converge_ticks →
      (MetaRulesController.update rcfg ccfg tile pac ghosts s).2 =
          MetaRulesController.converge_map ∧
      (MetaRulesController.update rcfg ccfg tile pac ghosts s).1.converge_ticks =
          s.converge_ticks - 1 ∧
      (MetaRulesController.update rcfg ccfg tile pac ghosts s).1.escape_ticks = 0) ∧
    (s.converge_ticks = 1 →
      (MetaRulesController.update rcfg ccfg tile pac ghosts s).1.converge_cooldown =
        ccfg.cooldown_ticks) ∧
    (s.converge_ticks = 0 → 2 ≤ s.converge_cooldown →
      MetaRulesController.update_converge_rule ccfg tile pac ghosts s =
        ({ s with converge_cooldown := s.converge_cooldown - 1 }, none)) := by
  obtain ⟨rm, et, rsc, ct, cc⟩ := s
  refine ⟨?_, ?_, ?_, ?_⟩
  · intro ht hcd hsec
    simp only at ht hcd
    subst ht
    subst hcd
    have hcv : MetaRulesController.update_converge_rule ccfg tile pac ghosts
        (MetaState.mk rm et rsc 0 0) =
        (MetaState.mk rm 0 rsc ccfg.hold_ticks 0, some MetaRulesController.converge_map) := by
      simp only [MetaRulesController.update_converge_rule]
      norm_num
      intro hlt
      exact absurd hsec (by omega)
    simp only [MetaRulesController.update, hcv]
  · intro hpos
    simp only at hpos
    have hcv : MetaRulesController.update_converge_rule ccfg tile pac ghosts
        (MetaState.mk rm et rsc ct cc) =
        (MetaState.mk rm 0 rsc (ct - 1)
          (if ct - 1 = 0 then ccfg.cooldown_ticks
            else if cc > 0 then cc - 1 else cc),
          some MetaRulesController.converge_map) := by
      simp only [MetaRulesController.update_converge_rule]
      rw [if_pos hpos]
    simp [MetaRulesController.update, hcv]
  · intro ht
    simp only at ht
    subst ht
    have hcv : MetaRulesController.update_converge_rule ccfg tile pac ghosts
        (MetaState.mk rm et rsc 1 cc) =
        (MetaState.mk rm 0 rsc 0 ccfg.cooldown_ticks,
          some MetaRulesController.converge_map) := by
      simp only [MetaRulesController.update_converge_rule]
      norm_num
    simp only [MetaRulesController.update, hcv]
  · intro ht hcc
    simp only at ht hcc
    subst ht
    have h1 : (if cc > 0 then cc - 1 else cc) = cc - 1 := if_pos (by omega)
    have h2 : ¬ (cc - 1 = 0) := by omega
    simp only [MetaRulesController.update_converge_rule, h1]
    norm_num
    intro h
    exact absurd h h2

/-- C2 witness: each conjunct of the amended converge state machine
exercised at a concrete input: (a) a trigger from the idle state (with a
zero sector requirement so the empty agent map suffices), (b) a tick with
hold 5, (c) the expiry tick with hold 1 arming the cooldown 30, (d) a tick
entered with cooldown 2 decrementing it without an override. -/
theorem c2_converge_state_machine_witness :
    (MetaRulesController.update {} { required_sectors := 0 } 30 (0, 0) (fun _ => none)
        MetaRulesController.init_state =
      ({ MetaRulesController.init_state with converge_ticks := 30, escape_ticks := 0 },
        MetaRulesController.converge_map)) ∧
    ((MetaRulesController.update {} {} 30 (0, 0) (fun _ => none)
        { converge_ticks := 5 }).2 = MetaRulesController.converge_map) ∧
    ((MetaRulesController.update {} {} 30 (0, 0) (fun _ => none)
        { converge_ticks := 1 }).1.converge_cooldown = 30) ∧
    (MetaRulesController.update_converge_rule {} 30 (0, 0) (fun _ => none)
        { converge_cooldown := 2 } =
      ({ converge_cooldown := 1 }, none)) := by
  refine ⟨?_, ?_, ?_, ?_⟩
  · exact (c2_converge_state_machine {} { required_sectors := 0 } 30 (0, 0) (fun _ => none)
      MetaRulesController.init_state).1 rfl rfl (Nat.zero_le _)
  · exact ((c2_converge_state_machine {} {} 30 (0, 0) (fun _ => none)
      { converge_ticks := 5 }).2.1 (by decide)).1
  · exact (c2_converge_state_machine {} {} 30 (0, 0) (fun _ => none)
      { converge_ticks := 1 }).2.2.1 rfl
  · exact (c2_converge_state_machine {} {} 30 (0, 0) (fun _ => none)
      { converge_cooldown := 2 }).2.2.2 rfl (by decide)

set_option maxRecDepth 100000 in
/-- C10: with no tracked identity present in the agent map, the minimum
player-to-agent distance evaluates to `⊤` (`float("inf")`), which satisfies
the safe-distance comparison, so the escape-tick counter increments on that
tick (stated below a threshold-reaching tick, where it is instead consumed
by the rotation); consequently, starting from the initial state, 59
default-config `update` calls with an empty agent map leave the identity
mapping unrotated while the 60th performs the rotation — even though no
agent is tracked — and, the embedded `update` being a total function, no
error is raised. -/
theorem c10_missing_agents_accumulate (tile : ℤ) (pac : Point) (rcfg : RoleSwapConfig)
    (s : MetaState) :
    (MetaRulesController.min_dist_to_pacman_tiles tile pac (fun _ => none) = ⊤) ∧
    (s.escape_ticks + 1 < rcfg.escape_ticks_threshold →
      (MetaRulesController.update_role_swap_rule rcfg tile pac (fun _ => none)
          s).escape_ticks = s.escape_ticks + 1) ∧
    ((fun st => (MetaRulesController.update {} {} 30 (0, 0) (fun _ => none) st).1)^[59]
        MetaRulesController.init_state).role_map = MetaRulesController.ghost_ids ∧
    ((fun st => (MetaRulesController.update {} {} 30 (0, 0) (fun _ => none) st).1)^[60]
        MetaRulesController.init_state).role_map = ["clyde", "blinky", "pinky", "inky"] := by
  refine ⟨rfl, ?_, by decide, by decide⟩
  intro h
  have hesc : (if (rcfg.safe_distance_tiles : WithTop ℚ) ≤
      MetaRulesController.min_dist_to_pacman_tiles tile pac (fun _ => none)
      then s.escape_ticks + 1 else 0) = s.escape_ticks + 1 := if_pos le_top
  simp only [MetaRulesController.update_role_swap_rule, hesc]
  rw [if_neg (fun hc => absurd hc.1 (by omega))]

/-- C10 witness: at the initial state the empty-map distance is `⊤` and one
role-swap-rule step increments the escape counter from 0 to 1. -/
theorem c10_missing_agents_accumulate_witness :
    (MetaRulesController.min_dist_to_pacman_tiles 30 (0, 0) (fun _ => none) = ⊤) ∧
    (MetaRulesController.update_role_swap_rule {} 30 (0, 0) (fun _ => none)
        MetaRulesController.init_state).escape_ticks =
      MetaRulesController.init_state.escape_ticks + 1 := by
  have H := c10_missing_agents_accumulate 30 (0, 0) {} MetaRulesController.init_state
  exact ⟨H.1, H.2.1 (by decide)⟩
